import Mathlib

/-!
Verification of the multi-source ingestion and normalization pipeline in
`src/api_data.py` (class `MultiSourceDataFetcher` and its helper functions).

Strings are modelled as `List Char`.  The model covers the ASCII fragment of
Python's Unicode-aware character classes: `\w` is `[A-Za-z0-9_]`
(`isWordChar`), `\s` is space/tab/CR/LF (`Char.isWhitespace`), and
`str.lower` is ASCII lowercasing (`Char.toLower`).  Python floats are
modelled as exact rationals `ℚ`; every concrete value appearing in the
claims (345.0, 1500.0, 4500.0, …) is exactly representable as an IEEE
double, so the comparison with the rational model is faithful there.
Python code that can raise is modelled in `Except Unit`, and code whose
exceptions are all caught is modelled as a total function.
-/

/-- Characters matched by the ASCII fragment of Python's regex class `\w`:
letters, digits and the underscore. -/
def isWordChar (c : Char) : Bool := c.isAlphanum || c == '_'

/-- Python `str.strip()` restricted to one-sided predicate `p`:
drop matching characters from the front and from the back. -/
def pyStrip (p : Char → Bool) (l : List Char) : List Char :=
  (l.dropWhile p).rdropWhile p

/-- Worker for `collapseRuns`: the flag records whether the previous
character belonged to a run matched by `p` (in which case further matching
characters are absorbed into the same replacement). -/
def collapseRunsAux (p : Char → Bool) (r : Char) : Bool → List Char → List Char
  | _, [] => []
  | inRun, c :: cs =>
    if p c then
      if inRun then collapseRunsAux p r true cs
      else r :: collapseRunsAux p r true cs
    else c :: collapseRunsAux p r false cs

/-- Model of `re.sub(pat+, r, s)` for a single-character class `pat`:
replace each maximal run of characters matched by `p` with the single
character `r`. -/
def collapseRuns (p : Char → Bool) (r : Char) (l : List Char) : List Char :=
  collapseRunsAux p r false l

/-- Embedding of `clean_column_name` (src/api_data.py:54-66):
strip whitespace, replace non-word non-space characters by `_`
(`re.sub(r"[^\w\s]", "_", s)`), collapse whitespace runs to `_`
(`re.sub(r"\s+", "_", s)`), collapse underscore runs
(`re.sub(r"_+", "_", s)`), strip underscores, lowercase.
The `if not col` guard returns falsy input (the empty string) unchanged. -/
def clean_column_name (col : List Char) : List Char :=
  if col = [] then col
  else
    let s0 := pyStrip Char.isWhitespace col
    let s1 := s0.map (fun c => if !(isWordChar c) && !(c.isWhitespace) then '_' else c)
    let s2 := collapseRuns Char.isWhitespace '_' s1
    let s3 := collapseRuns (fun c => c == '_') '_' s2
    let s4 := pyStrip (fun c => c == '_') s3
    s4.map Char.toLower

/-- The invariant satisfied by every output of `clean_column_name`: only
word characters, already lowercase, no two adjacent underscores, and no
leading or trailing underscore.  On such strings the function is the
identity. -/
def CleanName (t : List Char) : Prop :=
  (∀ c ∈ t, isWordChar c = true ∧ Char.toLower c = c) ∧
  List.Chain' (fun a b => ¬(a = '_' ∧ b = '_')) t ∧
  (∀ x ∈ t.head?, x ≠ '_') ∧ (∀ x ∈ t.getLast?, x ≠ '_')

/-- Lowercase each character of a string (Python `str.lower`, ASCII). -/
def toLowerStr (l : List Char) : List Char := l.map Char.toLower

/-- The sentinel strings `parse_numeric_keep_raw` treats as missing data
(compared against the lowercased trimmed input). -/
def sentinelStrings : List (List Char) :=
  ["na".toList, "n/a".toList, "-".toList, "null".toList, "none".toList]

/-- Value of a non-empty digit run, read in base 10. -/
def natOfDigits (l : List Char) : Nat :=
  l.foldl (fun a c => a * 10 + (c.toNat - 48)) 0

/-- The regex fragment `\d+(?:[\.,]\d+)?` matched greedily at the start of
`l`: a digit run, optionally followed by one `.` or `,` and a second digit
run.  Returns the matched characters, or `none` when `l` does not start
with a digit. -/
def matchNumAt (l : List Char) : Option (List Char) :=
  let ds := l.takeWhile Char.isDigit
  if ds = [] then none
  else
    match l.dropWhile Char.isDigit with
    | [] => some ds
    | sep :: rest =>
      if sep = '.' ∨ sep = ',' then
        let ds2 := rest.takeWhile Char.isDigit
        if ds2 = [] then some ds else some (ds ++ sep :: ds2)
      else some ds

/-- The regex `-?\d+(?:[\.,]\d+)?` matched at the start of `l`: a leading
minus only participates when digits follow it directly. -/
def matchTokenAt (l : List Char) : Option (List Char) :=
  match l with
  | '-' :: rest => (matchNumAt rest).map (fun t => '-' :: t)
  | _ => matchNumAt l

/-- Model of `re.search` for the numeric-token regex of `parse_numeric_keep_raw`
(src/api_data.py:41): the leftmost position with a match wins. -/
def searchToken : List Char → Option (List Char)
  | [] => none
  | c :: cs =>
    match matchTokenAt (c :: cs) with
    | some t => some t
    | none => searchToken cs

/-- Exponent part of a Python float literal: optional sign, then digits. -/
def expPart (l : List Char) : Option Int :=
  match l with
  | '+' :: rest =>
    if rest ≠ [] ∧ rest.all Char.isDigit then some (natOfDigits rest) else none
  | '-' :: rest =>
    if rest ≠ [] ∧ rest.all Char.isDigit then some (-(natOfDigits rest : Int)) else none
  | _ => if l ≠ [] ∧ l.all Char.isDigit then some (natOfDigits l) else none

/-- Unsigned part of Python `float(s)`: `digits`, `digits.`, `digits.digits`
or `.digits`, then an optional `e`/`E` exponent.  (The model covers the
decimal core of the literal syntax; `inf`/`nan` spellings are treated as
parse failures.) -/
def pyFloatCore (l : List Char) : Option ℚ :=
  let ip := l.takeWhile Char.isDigit
  match l.dropWhile Char.isDigit with
  | [] => if ip = [] then none else some (natOfDigits ip : ℚ)
  | '.' :: rest2 =>
    let fp := rest2.takeWhile Char.isDigit
    let mant : ℚ := (natOfDigits ip : ℚ) + (natOfDigits fp : ℚ) / ((10 : ℚ) ^ fp.length)
    if ip = [] ∧ fp = [] then none
    else
      match rest2.dropWhile Char.isDigit with
      | [] => some mant
      | e :: rest4 =>
        if e = 'e' ∨ e = 'E' then (expPart rest4).map (fun ex => mant * (10 : ℚ) ^ ex)
        else none
  | e :: rest2 =>
    if (e = 'e' ∨ e = 'E') ∧ ip ≠ [] then
      (expPart rest2).map (fun ex => (natOfDigits ip : ℚ) * (10 : ℚ) ^ ex)
    else none

/-- Python `float(s)` on a string, as an exact rational: strip whitespace,
optional sign, then the unsigned literal. -/
def pyFloat? (s : List Char) : Option ℚ :=
  match pyStrip Char.isWhitespace s with
  | '+' :: rest => pyFloatCore rest
  | '-' :: rest => (pyFloatCore rest).map Neg.neg
  | t => pyFloatCore t

/-- Python `int(s)` on a string: strip whitespace, optional sign, digits. -/
def pyIntStr? (s : List Char) : Option Int :=
  match pyStrip Char.isWhitespace s with
  | '+' :: rest =>
    if rest ≠ [] ∧ rest.all Char.isDigit then some (natOfDigits rest : Int) else none
  | '-' :: rest =>
    if rest ≠ [] ∧ rest.all Char.isDigit then some (-(natOfDigits rest : Int)) else none
  | t => if t ≠ [] ∧ t.all Char.isDigit then some (natOfDigits t : Int) else none

/-- Embedding of `parse_numeric_keep_raw` (src/api_data.py:18-52).  The
input is `none` for Python `None` and `some s` for a string input (for
strings, `str(value)` is the identity).  The result pairs the parsed
numeric value (as an exact rational) with the preserved trimmed raw
string; the bare `except` around `float(token)` maps parse failure to an
absent numeric value. -/
def parse_numeric_keep_raw : Option (List Char) → Option ℚ × Option (List Char)
  | none => (none, none)
  | some v =>
    let raw := pyStrip Char.isWhitespace v
    if raw = [] ∨ toLowerStr raw ∈ sentinelStrings then (none, some raw)
    else
      match searchToken raw with
      | none => (none, some raw)
      | some tok =>
        match pyFloat? (tok.filter (fun c => c ≠ ',')) with
        | some q => (some q, some raw)
        | none => (none, some raw)

/-- JSON scalar values carried by an API record: strings, integers, and
null/absent.  (These are the scalar shapes the claims exercise.) -/
inductive Value where
  | vstr (s : List Char)
  | vint (n : Int)
  | vnull
deriving DecidableEq

/-- Python truthiness of the modelled scalars. -/
def truthy : Value → Bool
  | .vstr s => !s.isEmpty
  | .vint n => n != 0
  | .vnull => false

/-- Python `a or b`. -/
def pyOr (a b : Value) : Value := if truthy a then a else b

/-- A raw API record: a field-name/value mapping. -/
abbrev Record : Type := List (String × Value)

/-- Python `record.get(k)`: `vnull` when the key is absent. -/
def Record.get (r : Record) (k : String) : Value :=
  match List.lookup k r with
  | some v => v
  | none => .vnull

/-- Python `str(x)` on the modelled scalars. -/
def pyStr : Value → List Char
  | .vstr s => s
  | .vint n => (toString n).toList
  | .vnull => "None".toList

/-- Python `x.strip()`: raises (`AttributeError`) unless `x` is a string. -/
def pyStripAttr : Value → Except Unit (List Char)
  | .vstr s => .ok (pyStrip Char.isWhitespace s)
  | _ => .error ()

/-- Python `int(x)` on the modelled scalars; raises on non-integer
strings and on `None`. -/
def pyIntOf : Value → Except Unit Int
  | .vint n => .ok n
  | .vstr s =>
    match pyIntStr? s with
    | some n => .ok n
    | none => .error ()
  | .vnull => .error ()

/-- Python `float(s)` on a string, raising on parse failure. -/
def pyFloatOf (s : List Char) : Except Unit ℚ :=
  match pyFloat? s with
  | some q => .ok q
  | none => .error ()

/-- A database cell: text, integer, real, or NULL. -/
inductive DBVal where
  | s (v : List Char)
  | i (v : Int)
  | r (v : ℚ)
  | null
deriving DecidableEq

/-- The guard list of `normalize_crop_data` for area/production strings:
`['NA', 'N/A', '', 'null']`. -/
def cropNASentinels : List (List Char) :=
  ["NA".toList, "N/A".toList, [], "null".toList]

/-- Body of the per-record `try:` block of `normalize_crop_data`
(src/api_data.py:371-397), in source statement order.  `.ok (some row)`
means the row is appended; `.ok none` means it fell through the
`if state and year > 0` required-field check; `.error ()` means a
statement raised and the bare `except` dropped the record. -/
def cropExtract (ts : List Char) (record : Record) :
    Except Unit (Option (List DBVal)) := do
  let state ← pyStripAttr (pyOr (pyOr (pyOr (record.get "state_name")
    (record.get "State")) (record.get "state")) (.vstr []))
  let district ← pyStripAttr (pyOr (pyOr (pyOr (record.get "district_name")
    (record.get "District")) (record.get "district")) (.vstr []))
  let crop ← pyStripAttr (pyOr (pyOr (record.get "crop") (record.get "Crop")) (.vstr []))
  let season ← pyStripAttr (pyOr (pyOr (record.get "season") (record.get "Season")) (.vstr []))
  let year_val := pyOr (pyOr (pyOr (record.get "year") (record.get "Year"))
    (record.get "crop_year")) (.vint 0)
  let year ← if truthy year_val then pyIntOf year_val else pure 0
  let area_str := pyStr (pyOr (pyOr (record.get "area") (record.get "Area")) (.vstr ['0']))
  let prod_str := pyStr (pyOr (pyOr (record.get "production")
    (record.get "Production")) (.vstr ['0']))
  let area ← if area_str ∉ cropNASentinels then pyFloatOf area_str else pure 0
  let production ← if prod_str ∉ cropNASentinels then pyFloatOf prod_str else pure 0
  if state ≠ [] ∧ year > 0 then
    return some [.s state, .s district, .s crop, .s season, .i year, .r area,
      .r production, .s ("data.gov.in_crop_production".toList), .s ts]
  else
    return none

/-- Embedding of `normalize_crop_data` (src/api_data.py:366-399): keep the
rows whose extraction succeeds and passes the required-field check, in
encounter order.  `ts` is the shared `datetime.now().isoformat()`
timestamp taken at entry. -/
def normalize_crop_data (records : List Record) (ts : List Char) : List (List DBVal) :=
  records.filterMap (fun r =>
    match cropExtract ts r with
    | .ok (some row) => some row
    | _ => none)

/-- One row of the `data_metadata` table (src/api_data.py:300-310):
surrogate AUTOINCREMENT id plus the declared columns.  Every column other
than the id is nullable. -/
structure MetaRow where
  rid : Nat
  table_name : String
  resource_id : Option String
  last_updated : Option String
  record_count : Option Nat
  description : Option String
  fetch_status : Option String
deriving DecidableEq

/-- The SQLite state visible to `save_to_database`: the rows of every
destination table (keyed by table name, in insertion order), the rows of
`data_metadata`, and its next AUTOINCREMENT id (AUTOINCREMENT ids are
monotone and never reused, so every stored id is below `nextMetaId`). -/
structure DBState where
  tables : String → List (List DBVal)
  meta : List MetaRow
  nextMetaId : Nat

/-- Effect of `INSERT OR REPLACE INTO data_metadata (table_name,
last_updated, record_count, fetch_status) VALUES (?, ?, (SELECT COUNT(*)
FROM {table}), 'success')` (src/api_data.py:811-815): the conflicting row
with the same UNIQUE `table_name` (if any) is deleted and a fresh row is
inserted, in which the unnamed columns `resource_id` and `description`
are NULL and `id` is the next AUTOINCREMENT value. -/
def upsertMetadata (st : DBState) (t : String) (now : String) (cnt : Nat) : DBState :=
  { tables := st.tables
    meta := st.meta.filter (fun m => m.table_name ≠ t) ++
      [{ rid := st.nextMetaId, table_name := t, resource_id := none,
         last_updated := some now, record_count := some cnt,
         description := none, fetch_status := some "success" }]
    nextMetaId := st.nextMetaId + 1 }

/-- The metadata row for table `t`, if any (`table_name` is UNIQUE). -/
def findMeta (st : DBState) (t : String) : Option MetaRow :=
  st.meta.find? (fun m => m.table_name == t)

/-- Embedding of `save_to_database` (src/api_data.py:791-823).  `columns`
only shapes the SQL text in the source; whether either of the two
database statements raises is abstracted by the oracles `failInsert` and
`failMeta` (`some msg` means that statement raises with message `msg`,
covering constraint violations, arity mismatches with `columns`,
connection failures, …).  The batch insert is committed *before* the
metadata update runs, so the `except` branch's rollback undoes only
uncommitted work of the statement that raised.  Returns the new state
and the `(inserted_count, status)` pair. -/
def save_to_database (st : DBState) (table_name : String) (data : List (List DBVal))
    (columns : List String) (now : String) (failInsert failMeta : Option String) :
    DBState × Nat × String :=
  if data = [] then (st, 0, "No data to save")
  else
    match failInsert with
    | some msg => (st, 0, "Error: " ++ msg)
    | none =>
      let st1 : DBState := { st with
        tables := fun u => if u = table_name then st.tables u ++ data else st.tables u }
      match failMeta with
      | some msg => (st1, 0, "Error: " ++ msg)
      | none =>
        (upsertMetadata st1 table_name now (st1.tables table_name).length,
          data.length, "success")

/-- One attempt of the retry loop of `fetch_data`: the HTTP call either
returns a parsed JSON body (with or without a usable `records` array),
raises an `HTTPError` carrying a status code, times out, or raises some
other exception (e.g. malformed JSON). -/
inductive AttemptOutcome where
  | success (hasRecordsKey : Bool) (records : List Record)
  | httpError (code : Nat)
  | timeout
  | otherError
deriving DecidableEq

/-- Whether an attempt outcome is a body with a usable `records` array
(`'records' in data and data['records']`). -/
def isSuccessOutcome : AttemptOutcome → Bool
  | .success hasKey recs => hasKey && !recs.isEmpty
  | _ => false

/-- The retry loop of `fetch_data` (src/api_data.py:328-364), over the
outcomes of the remaining attempts (head = current attempt).  Success
with usable records returns the body; a 200 body without usable records
returns `None` immediately; 404 returns `None` immediately; 429 and
timeout sleep and continue; other HTTP errors and other exceptions
return `None` only on the last attempt; an exhausted loop falls through
to the trailing `return None`. -/
def fetchLoop : List AttemptOutcome → Option (Bool × List Record)
  | [] => none
  | o :: rest =>
    match o with
    | .success hasKey recs =>
      if hasKey = true ∧ recs ≠ [] then some (hasKey, recs) else none
    | .httpError code =>
      if code = 404 then none
      else if code = 429 then fetchLoop rest
      else if rest = [] then none else fetchLoop rest
    | .timeout => fetchLoop rest
    | .otherError => if rest = [] then none else fetchLoop rest

/-- Embedding of `fetch_data` (src/api_data.py:317-364) with the HTTP
attempts abstracted by the oracle `attempt`: the loop body runs for
attempts `0 .. max_retries - 1`.  The function is total: every failure
mode of an attempt is one of the caught exception classes. -/
def fetch_data (attempt : Nat → AttemptOutcome) (max_retries : Nat) :
    Option (Bool × List Record) :=
  fetchLoop ((List.range max_retries).map attempt)

/-- One entry of `MultiSourceDataFetcher.DATA_SOURCES`. -/
structure SourceConfig where
  resource_id : String
  table_name : String
  description : String
  enabled : Bool

/-- The normalizer methods other than `normalize_crop_data`, abstracted
as parameters of the orchestrator embedding: the claims constrain only
the dispatch structure and the crop normalizer, not these bodies. -/
structure OtherNormalizers where
  rainfall_district : List Record → List (List DBVal)
  production_crop_specific : List Record → List (List DBVal)
  agency_rainfall : List Record → List (List DBVal)
  damages_floods : List Record → List (List DBVal)
  damages_rainfall : List Record → List (List DBVal)
  extreme_temperature : List Record → List (List DBVal)
  drought_cases : List Record → List (List DBVal)

/-- The literal column list passed to `save_to_database` for
`crop_production` (src/api_data.py:853-854). -/
def cropColumns : List String :=
  ["state", "district", "crop", "season", "year", "area", "production",
   "data_source", "fetch_timestamp"]

/-- Column lists of the remaining dispatch branches
(src/api_data.py:855-891). -/
def rainfallColumns : List String :=
  ["SUBDIVISION", "YEAR", "jan", "feb", "mar", "apr", "may", "jun", "jul",
   "aug", "sep", "oct", "nov", "dec", "annual"]

def productionCropColumns : List String :=
  ["State", "District", "Wheat", "Maize", "Rice", "Barley", "Ragi", "Pulses",
   "common_millets", "Total", "Chillies", "Ginger", "Oil_seeds"]

def agencyRainfallColumns : List String :=
  ["State", "District", "Date", "Year", "Month", "Avg_rainfall", "Agency_name"]

def damagesFloodsColumns : List String :=
  ["year", "s_no", "state_ut", "area_affected_hectare", "area_affected_hectare_raw",
   "damage_to_crop_hectare", "damage_to_crop_hectare_raw", "livestock_loss_count",
   "livestock_loss_count_raw", "human_lives_lost", "human_lives_lost_raw",
   "source", "fetch_timestamp"]

def damagesRainfallColumns : List String :=
  ["year", "state_ut", "crop_damage_hectare", "crop_damage_hectare_raw",
   "crop_damage_value_crore", "crop_damage_value_crore_raw", "rainfall_type",
   "source", "fetch_timestamp"]

def extremeTemperatureColumns : List String :=
  ["year", "state_ut", "extreme_event_type", "event_days", "event_days_raw",
   "deaths", "deaths_raw", "source", "fetch_timestamp"]

def droughtCasesColumns : List String :=
  ["year", "state_ut", "drought_severity", "area_affected_hectare",
   "area_affected_hectare_raw", "crop_loss_value_crore", "crop_loss_value_crore_raw",
   "source", "fetch_timestamp"]

/-- The `if source_key == …` dispatch chain of `fetch_all_sources`
(src/api_data.py:851-893): the normalizer and column list for a source
key, or `none` for the final `else: continue` (which also swallows the
configured-but-undispatched `climate_expenditure` key). -/
def dispatchNormalizer (nz : OtherNormalizers) (ts : List Char) (source_key : String)
    (records : List Record) : Option (List (List DBVal) × List String) :=
  if source_key = "crop_production" then
    some (normalize_crop_data records ts, cropColumns)
  else if source_key = "rainfall_district" then
    some (nz.rainfall_district records, rainfallColumns)
  else if source_key = "production_crop_specific" then
    some (nz.production_crop_specific records, productionCropColumns)
  else if source_key = "Agency_Rainfall" then
    some (nz.agency_rainfall records, agencyRainfallColumns)
  else if source_key = "damages_floods" then
    some (nz.damages_floods records, damagesFloodsColumns)
  else if source_key = "damages_rainfall" then
    some (nz.damages_rainfall records, damagesRainfallColumns)
  else if source_key = "extreme_temperature" then
    some (nz.extreme_temperature records, extremeTemperatureColumns)
  else if source_key = "drought_cases" then
    some (nz.drought_cases records, droughtCasesColumns)
  else none

/-- Embedding of `fetch_all_sources` (src/api_data.py:825-918).
`fetchResult` abstracts `self.fetch_data(resource_id, limit=1000)` (its
value is the parsed body or `None`); `failures` gives the two
`save_to_database` failure oracles for a destination table; `ts` is the
normalization timestamp and `now` the metadata timestamp.  Returns the
final database state, the `results` mapping in insertion order (keys of
the catalog are unique), and the resource ids actually fetched.  A
disabled source is skipped before any fetch; a missing/empty body
records `(0, "no_data")`; an unknown key is skipped after the fetch with
no results entry. -/
def fetch_all_sources (sources : List (String × SourceConfig))
    (fetchResult : String → Option (Bool × List Record))
    (nz : OtherNormalizers) (ts : List Char) (now : String)
    (failures : String → Option String × Option String) (st : DBState) :
    DBState × List (String × Nat × String) × List String :=
  match sources with
  | [] => (st, [], [])
  | (source_key, cfg) :: rest =>
    if cfg.enabled = false then
      fetch_all_sources rest fetchResult nz ts now failures st
    else
      match fetchResult cfg.resource_id with
      | none =>
        let next := fetch_all_sources rest fetchResult nz ts now failures st
        (next.1, (source_key, 0, "no_data") :: next.2.1, cfg.resource_id :: next.2.2)
      | some (hasKey, records) =>
        if hasKey = false ∨ records = [] then
          let next := fetch_all_sources rest fetchResult nz ts now failures st
          (next.1, (source_key, 0, "no_data") :: next.2.1, cfg.resource_id :: next.2.2)
        else
          match dispatchNormalizer nz ts source_key records with
          | none =>
            let next := fetch_all_sources rest fetchResult nz ts now failures st
            (next.1, next.2.1, cfg.resource_id :: next.2.2)
          | some (normalized, columns) =>
            let saved := save_to_database st cfg.table_name normalized columns now
              (failures cfg.table_name).1 (failures cfg.table_name).2
            let next := fetch_all_sources rest fetchResult nz ts now failures saved.1
            (next.1, (source_key, saved.2.1, saved.2.2) :: next.2.1,
              cfg.resource_id :: next.2.2)

/-- A well-formed crop record used to exercise the orchestrator. -/
def punjabRecord : Record :=
  [("state", Value.vstr ("Punjab".toList)), ("year", Value.vint 2010),
   ("area", Value.vstr ("1500".toList)), ("production", Value.vstr ("4500".toList))]

/-- Orchestrator scenario: an enabled crop-production source. -/
def c9CropConfig : SourceConfig :=
  { resource_id := "rid1", table_name := "crop_production",
    description := "crop production", enabled := true }

/-- Orchestrator scenario: a disabled source. -/
def c9DisabledConfig : SourceConfig :=
  { resource_id := "rid2", table_name := "rainfall_district",
    description := "district rainfall", enabled := false }

/-- Orchestrator scenario: the enabled source's fetch returns three
well-formed records; any other resource id returns nothing. -/
def c9Fetch : String → Option (Bool × List Record) := fun rid =>
  if rid = "rid1" then some (true, [punjabRecord, punjabRecord, punjabRecord]) else none

/-- Orchestrator scenario: trivial stand-ins for the normalizers the
scenario never dispatches to. -/
def c9NoNormalizers : OtherNormalizers :=
  { rainfall_district := fun _ => [], production_crop_specific := fun _ => [],
    agency_rainfall := fun _ => [], damages_floods := fun _ => [],
    damages_rainfall := fun _ => [], extreme_temperature := fun _ => [],
    drought_cases := fun _ => [] }

/-- Orchestrator scenario: no database statement fails. -/
def c9NoFailures : String → Option String × Option String := fun _ => (none, none)

/-- Orchestrator scenario: an empty database. -/
def c9EmptyState : DBState := ⟨fun _ => [], [], 1⟩

theorem char_eq_iff_toNat (c d : Char) : c = d ↔ c.toNat = d.toNat := by
  constructor
  · intro h; rw [h]
  · intro h; apply Char.ext; exact UInt32.ext h

theorem uint32_le_iff_toNat (a b : UInt32) : a ≤ b ↔ a.toNat ≤ b.toNat := by
  simp [UInt32.le_def, BitVec.le_def, UInt32.toNat]

theorem isWordChar_iff (c : Char) : isWordChar c = true ↔
    (48 ≤ c.toNat ∧ c.toNat ≤ 57) ∨ (65 ≤ c.toNat ∧ c.toNat ≤ 90) ∨
    (97 ≤ c.toNat ∧ c.toNat ≤ 122) ∨ c.toNat = 95 := by
  have h95 : (('_' : Char).toNat) = 95 := by decide
  simp only [isWordChar, Char.isAlphanum, Char.isAlpha, Char.isUpper, Char.isLower,
    Char.isDigit, Bool.or_eq_true, Bool.and_eq_true, decide_eq_true_eq, beq_iff_eq,
    char_eq_iff_toNat, ge_iff_le, Char.le_def, uint32_le_iff_toNat, h95,
    UInt32.toNat_ofNat, UInt32.size, Char.toNat,
    (show ('_' : Char).val.toNat = 95 from rfl)]
  omega

theorem isWhitespace_iff (c : Char) : c.isWhitespace = true ↔
    c.toNat = 32 ∨ c.toNat = 9 ∨ c.toNat = 13 ∨ c.toNat = 10 := by
  simp only [Char.isWhitespace, Bool.or_eq_true, beq_iff_eq, decide_eq_true_eq,
    char_eq_iff_toNat,
    (show (' ' : Char).toNat = 32 from rfl), (show ('\t' : Char).toNat = 9 from rfl),
    (show ('\r' : Char).toNat = 13 from rfl), (show ('\n' : Char).toNat = 10 from rfl)]
  omega

theorem toNat_ofNat_valid (n : Nat) (h : n < 0xd800) : (Char.ofNat n).toNat = n := by
  have hv : n.isValidChar := Or.inl h
  rw [Char.ofNat, dif_pos hv]
  simp [Char.ofNatAux, Char.toNat, UInt32.toNat]

theorem toLower_toNat (c : Char) :
    (Char.toLower c).toNat = if 65 ≤ c.toNat ∧ c.toNat ≤ 90 then c.toNat + 32 else c.toNat := by
  rw [Char.toLower]
  split
  · next h => exact toNat_ofNat_valid _ (by omega)
  · next h => rfl

theorem wordChar_not_space (c : Char) (h : isWordChar c = true) :
    c.isWhitespace = false := by
  rw [isWordChar_iff] at h
  by_contra hc
  rw [Bool.not_eq_false, isWhitespace_iff] at hc
  omega

theorem toLower_idem (c : Char) : Char.toLower (Char.toLower c) = Char.toLower c := by
  rw [char_eq_iff_toNat, toLower_toNat, toLower_toNat]
  split_ifs <;> omega

theorem isWordChar_toLower (c : Char) : isWordChar (Char.toLower c) = isWordChar c := by
  by_cases h : 65 ≤ c.toNat ∧ c.toNat ≤ 90
  · have ht : (Char.toLower c).toNat = c.toNat + 32 := by rw [toLower_toNat, if_pos h]
    have h1 : isWordChar (Char.toLower c) = true := by rw [isWordChar_iff]; omega
    have h2 : isWordChar c = true := by rw [isWordChar_iff]; omega
    rw [h1, h2]
  · have ht : (Char.toLower c).toNat = c.toNat := by rw [toLower_toNat, if_neg h]
    rcases hw : isWordChar c
    · rw [Bool.eq_false_iff]
      intro hx
      rw [isWordChar_iff, ht] at hx
      rw [Bool.eq_false_iff] at hw
      exact hw (by rw [isWordChar_iff]; exact hx)
    · rw [isWordChar_iff, ht]
      rw [isWordChar_iff] at hw
      exact hw

theorem toLower_eq_underscore (c : Char) : Char.toLower c = '_' ↔ c = '_' := by
  rw [char_eq_iff_toNat, char_eq_iff_toNat, toLower_toNat,
    (show (('_' : Char).toNat) = 95 from by decide)]
  split <;> omega

theorem collapseRunsAux_no_match (p : Char → Bool) (r : Char) (l : List Char) :
    ∀ b, (∀ c ∈ l, p c = false) → collapseRunsAux p r b l = l := by
  induction l with
  | nil => intro b _; rfl
  | cons c cs ih =>
    intro b h
    have hc : p c = false := h c (List.mem_cons_self c cs)
    simp only [collapseRunsAux, hc, Bool.false_eq_true, if_false, List.cons.injEq, true_and]
    exact ih false (fun x hx => h x (List.mem_cons_of_mem _ hx))

theorem collapseRunsAux_mem (p : Char → Bool) (r : Char) (l : List Char) :
    ∀ b x, x ∈ collapseRunsAux p r b l → x = r ∨ (x ∈ l ∧ p x = false) := by
  induction l with
  | nil => intro b x hx; simp [collapseRunsAux] at hx
  | cons c cs ih =>
    intro b x hx
    by_cases hc : p c = true
    · rcases b with _ | _
      · simp only [collapseRunsAux, hc, if_true] at hx
        rcases List.mem_cons.mp hx with h1 | h1
        · exact Or.inl h1
        · rcases ih true x h1 with h2 | h2
          · exact Or.inl h2
          · exact Or.inr ⟨List.mem_cons_of_mem _ h2.1, h2.2⟩
      · simp only [collapseRunsAux, hc, if_true] at hx
        rcases ih true x hx with h2 | h2
        · exact Or.inl h2
        · exact Or.inr ⟨List.mem_cons_of_mem _ h2.1, h2.2⟩
    · rw [Bool.not_eq_true] at hc
      simp only [collapseRunsAux, hc, Bool.false_eq_true, if_false] at hx
      rcases List.mem_cons.mp hx with h1 | h1
      · exact Or.inr ⟨h1 ▸ List.mem_cons_self c cs, h1 ▸ hc⟩
      · rcases ih false x h1 with h2 | h2
        · exact Or.inl h2
        · exact Or.inr ⟨List.mem_cons_of_mem _ h2.1, h2.2⟩

theorem collapseRunsAux_head_true (p : Char → Bool) (r : Char) (l : List Char) :
    ∀ x ∈ (collapseRunsAux p r true l).head?, p x = false := by
  induction l with
  | nil => intro x hx; simp [collapseRunsAux] at hx
  | cons c cs ih =>
    intro x hx
    by_cases hc : p c = true
    · simp only [collapseRunsAux, hc, if_true] at hx
      exact ih x hx
    · rw [Bool.not_eq_true] at hc
      simp only [collapseRunsAux, hc, Bool.false_eq_true, if_false, List.head?_cons,
        Option.mem_def, Option.some.injEq] at hx
      exact hx ▸ hc

theorem collapseRunsAux_chain (p : Char → Bool) (r : Char) (l : List Char) :
    ∀ b, List.Chain' (fun a c => ¬(p a = true ∧ p c = true)) (collapseRunsAux p r b l) := by
  induction l with
  | nil => intro b; simp [collapseRunsAux]
  | cons c cs ih =>
    intro b
    by_cases hc : p c = true
    · rcases b with _ | _
      · simp only [collapseRunsAux, hc, if_true, Bool.false_eq_true, if_false]
        rw [List.chain'_cons']
        refine ⟨fun y hy => ?_, ih true⟩
        have hny := collapseRunsAux_head_true p r cs y hy
        rintro ⟨-, h2⟩
        rw [hny] at h2
        exact absurd h2 (by simp)
      · simp only [collapseRunsAux, hc, if_true, if_pos rfl]
        exact ih true
    · rw [Bool.not_eq_true] at hc
      simp only [collapseRunsAux, hc, Bool.false_eq_true, if_false]
      rw [List.chain'_cons']
      refine ⟨fun y hy => ?_, ih false⟩
      rintro ⟨h1, -⟩
      rw [hc] at h1
      exact absurd h1 (by simp)

theorem collapseRunsAux_id (p : Char → Bool) (r : Char)
    (hpr : ∀ c, p c = true → c = r) (l : List Char) :
    ∀ b, List.Chain' (fun a c => ¬(p a = true ∧ p c = true)) l →
      (b = true → ∀ x ∈ l.head?, p x = false) → collapseRunsAux p r b l = l := by
  induction l with
  | nil => intro b _ _; rfl
  | cons c cs ih =>
    intro b hch hb
    by_cases hc : p c = true
    · rcases b with _ | _
      · simp only [collapseRunsAux, hc, if_true, Bool.false_eq_true, if_false]
        have hcr : c = r := hpr c hc
        subst hcr
        congr 1
        apply ih true hch.tail
        intro _ x hx
        have hrel := (List.chain'_cons'.mp hch).1 x hx
        by_contra hpx
        rw [Bool.not_eq_false] at hpx
        exact hrel ⟨hc, hpx⟩
      · have := hb rfl c (by simp)
        rw [hc] at this
        exact absurd this (by simp)
    · rw [Bool.not_eq_true] at hc
      simp only [collapseRunsAux, hc, Bool.false_eq_true, if_false, List.cons.injEq, true_and]
      exact ih false hch.tail (by simp)

theorem mem_pyStrip (p : Char → Bool) (l : List Char) (x : Char) (hx : x ∈ pyStrip p l) :
    x ∈ l := by
  unfold pyStrip at hx
  obtain ⟨t, ht⟩ := List.rdropWhile_prefix p (l.dropWhile p)
  have hx2 : x ∈ l.dropWhile p := by
    rw [← ht]
    exact List.mem_append_left t hx
  exact List.Sublist.mem hx2 (List.dropWhile_sublist p)

theorem chain'_dropWhile {R : Char → Char → Prop} (p : Char → Bool) (l : List Char)
    (h : List.Chain' R l) : List.Chain' R (l.dropWhile p) := by
  induction l with
  | nil => exact h
  | cons c cs ih =>
    rw [List.dropWhile_cons]
    split
    · exact ih h.tail
    · exact h

theorem chain'_pyStrip {R : Char → Char → Prop} (p : Char → Bool) (l : List Char)
    (h : List.Chain' R l) : List.Chain' R (pyStrip p l) := by
  unfold pyStrip
  obtain ⟨t, ht⟩ := List.rdropWhile_prefix p (l.dropWhile p)
  have h2 : List.Chain' R (l.dropWhile p) := chain'_dropWhile p l h
  rw [← ht] at h2
  exact h2.left_of_append

theorem head_pyStrip (p : Char → Bool) (l : List Char) :
    ∀ x ∈ (pyStrip p l).head?, p x = false := by
  intro x hx
  unfold pyStrip at hx
  obtain ⟨t, ht⟩ := List.rdropWhile_prefix p (l.dropWhile p)
  rcases hrd : List.rdropWhile p (l.dropWhile p) with _ | ⟨a, as⟩
  · rw [hrd] at hx; simp at hx
  · rw [hrd] at hx ht
    simp only [List.head?_cons, Option.mem_def, Option.some.injEq] at hx
    have hhm : (l.dropWhile p).head? = some a := by
      rw [← ht]; rfl
    have := List.head?_dropWhile_not p l
    rw [hhm] at this
    exact hx ▸ this

theorem last_pyStrip (p : Char → Bool) (l : List Char) :
    ∀ x ∈ (pyStrip p l).getLast?, p x = false := by
  intro x hx
  unfold pyStrip at hx
  have hne : List.rdropWhile p (l.dropWhile p) ≠ [] := by
    intro h
    rw [h] at hx
    simp at hx
  have hlast := List.rdropWhile_last_not p (l.dropWhile p) hne
  rw [List.getLast?_eq_getLast _ hne, Option.mem_def, Option.some.injEq] at hx
  rw [hx] at hlast
  simpa using hlast

theorem pyStrip_id (p : Char → Bool) (l : List Char)
    (hh : ∀ x ∈ l.head?, p x = false) (hl : ∀ x ∈ l.getLast?, p x = false) :
    pyStrip p l = l := by
  unfold pyStrip
  have h1 : l.dropWhile p = l := by
    rw [List.dropWhile_eq_self_iff]
    intro hlen
    have hm : l.head? = some (l.get ⟨0, hlen⟩) := by
      rcases l with _ | ⟨a, as⟩
      · simp at hlen
      · rfl
    have := hh _ (by rw [hm]; exact rfl)
    simpa using this
  rw [h1, List.rdropWhile_eq_self_iff]
  intro hne
  have := hl _ (by rw [List.getLast?_eq_getLast l hne]; exact rfl)
  simp [this]

theorem cleanName_id (t : List Char) (h : CleanName t) : clean_column_name t = t := by
  obtain ⟨hw, hch, hh, hl⟩ := h
  have hword : ∀ c ∈ t, isWordChar c = true := fun c hc => (hw c hc).1
  by_cases ht : t = []
  · rw [clean_column_name, if_pos ht]
  simp only [clean_column_name, if_neg ht]
  have h0 : pyStrip Char.isWhitespace t = t := by
    apply pyStrip_id
    · intro x hx
      exact wordChar_not_space x (hword x (List.mem_of_mem_head? hx))
    · intro x hx
      exact wordChar_not_space x (hword x (List.mem_of_mem_getLast? hx))
  rw [h0]
  have h1 : t.map (fun c => if !(isWordChar c) && !(c.isWhitespace) then '_' else c) = t := by
    have he : ∀ c ∈ t, (if !(isWordChar c) && !(c.isWhitespace) then '_' else c) = id c := by
      intro c hc
      simp [hword c hc]
    rw [List.map_congr_left he, List.map_id]
  rw [h1]
  have h2 : collapseRuns Char.isWhitespace '_' t = t :=
    collapseRunsAux_no_match _ _ t false (fun c hc => wordChar_not_space c (hword c hc))
  rw [h2]
  have hch' : List.Chain' (fun a c => ¬((a == '_') = true ∧ (c == '_') = true)) t := by
    refine hch.imp ?_
    intro a b hab
    simpa using hab
  have h3 : collapseRuns (fun c => c == '_') '_' t = t := by
    apply collapseRunsAux_id _ _ (fun c hc => by simpa using hc) t false hch'
    simp
  rw [h3]
  have h4 : pyStrip (fun c => c == '_') t = t := by
    apply pyStrip_id
    · intro x hx
      simpa using hh x hx
    · intro x hx
      simpa using hl x hx
  rw [h4]
  have he : ∀ c ∈ t, Char.toLower c = id c := fun c hc => (hw c hc).2
  rw [List.map_congr_left he, List.map_id]

theorem cleanName_clean (s : List Char) : CleanName (clean_column_name s) := by
  by_cases hs : s = []
  · rw [clean_column_name, if_pos hs, hs]
    exact ⟨by simp, by simp, by simp, by simp⟩
  simp only [clean_column_name, if_neg hs]
  set s1 := (pyStrip Char.isWhitespace s).map
    (fun c => if !(isWordChar c) && !(c.isWhitespace) then '_' else c) with hs1
  set s2 := collapseRuns Char.isWhitespace '_' s1 with hs2
  set s3 := collapseRuns (fun c => c == '_') '_' s2 with hs3
  set s4 := pyStrip (fun c => c == '_') s3 with hs4
  have hA1 : ∀ c ∈ s1, isWordChar c = true ∨ c.isWhitespace = true := by
    intro c hc
    obtain ⟨d, hd, rfl⟩ := List.mem_map.mp hc
    by_cases hb : (!(isWordChar d) && !(d.isWhitespace)) = true
    · rw [if_pos hb]
      left
      decide
    · rw [if_neg hb]
      rcases hwd : isWordChar d
      · right
        simp [hwd] at hb
        exact hb
      · left
        rfl
  have hA2 : ∀ c ∈ s2, isWordChar c = true := by
    intro c hc
    rcases collapseRunsAux_mem _ _ _ _ _ hc with h | ⟨hmem, hns⟩
    · subst h; decide
    · rcases hA1 c hmem with h | h
      · exact h
      · rw [h] at hns; exact absurd hns (by simp)
  have hA3 : ∀ c ∈ s3, isWordChar c = true := by
    intro c hc
    rcases collapseRunsAux_mem _ _ _ _ _ hc with h | ⟨hmem, -⟩
    · subst h; decide
    · exact hA2 c hmem
  have hC3 : List.Chain' (fun a b => ¬(a = '_' ∧ b = '_')) s3 := by
    have := collapseRunsAux_chain (fun c => c == '_') '_' s2 false
    refine this.imp ?_
    intro a b hab h
    exact hab (by simpa using h)
  have hA4 : ∀ c ∈ s4, isWordChar c = true := fun c hc => hA3 c (mem_pyStrip _ _ _ hc)
  have hC4 : List.Chain' (fun a b => ¬(a = '_' ∧ b = '_')) s4 := chain'_pyStrip _ _ hC3
  have hH4 : ∀ x ∈ s4.head?, x ≠ '_' := by
    intro x hx
    have := head_pyStrip (fun c => c == '_') s3 x hx
    simpa using this
  have hL4 : ∀ x ∈ s4.getLast?, x ≠ '_' := by
    intro x hx
    have := last_pyStrip (fun c => c == '_') s3 x hx
    simpa using this
  refine ⟨?_, ?_, ?_, ?_⟩
  · intro c hc
    obtain ⟨d, hd, rfl⟩ := List.mem_map.mp hc
    exact ⟨by rw [isWordChar_toLower]; exact hA4 d hd, toLower_idem d⟩
  · rw [List.chain'_map]
    refine hC4.imp ?_
    intro a b hab h
    exact hab ⟨(toLower_eq_underscore a).mp h.1, (toLower_eq_underscore b).mp h.2⟩
  · intro x hx
    rw [List.head?_map] at hx
    obtain ⟨y, hy, rfl⟩ := Option.map_eq_some'.mp hx
    intro h
    exact hH4 y (by rw [hy]; rfl) ((toLower_eq_underscore y).mp h)
  · intro x hx
    rw [List.getLast?_map] at hx
    obtain ⟨y, hy, rfl⟩ := Option.map_eq_some'.mp hx
    intro h
    exact hL4 y (by rw [hy]; rfl) ((toLower_eq_underscore y).mp h)

/-- Claim C7: `clean_column_name` maps "State/UT" to "state_ut" and "S.No."
to "s_no", and it is idempotent: cleaning an already-cleaned name yields
the same name, for every input string. -/
theorem C7_clean_column_name_examples_idempotent :
    clean_column_name ("State/UT".toList) = "state_ut".toList ∧
    clean_column_name ("S.No.".toList) = "s_no".toList ∧
    ∀ s : List Char, clean_column_name (clean_column_name s) = clean_column_name s :=
  ⟨by decide, by decide, fun s => cleanName_id _ (cleanName_clean s)⟩

/-- Claim C1 (code bug): on "3,45,000" the regex `-?\d+(?:[\.,]\d+)?` can
consume only one grouping separator, so the matched token is "3,45" and the
parsed value is 345.0 — not the 345000.0 promised by the function's own
docstring and the spec. -/
theorem C1_parse_numeric_indian_grouping :
    parse_numeric_keep_raw (some ("3,45,000".toList)) =
      (some (345 : ℚ), some ("3,45,000".toList)) ∧ (345 : ℚ) ≠ 345000 :=
  ⟨by decide, by decide⟩

/-- Claim C8: any input whose trimmed form is empty or a case-insensitive
sentinel ("na", "n/a", "-", "null", "none") parses to an absent numeric
value with the trimmed raw string preserved verbatim.  Totality (the
"never raises" half) is by construction: `parse_numeric_keep_raw` is a
total function into pairs. -/
theorem C8_parse_numeric_sentinels (v : List Char)
    (h : pyStrip Char.isWhitespace v = [] ∨
      toLowerStr (pyStrip Char.isWhitespace v) ∈ sentinelStrings) :
    parse_numeric_keep_raw (some v) = (none, some (pyStrip Char.isWhitespace v)) := by
  simp only [parse_numeric_keep_raw]
  rw [if_pos h]

theorem C8_parse_numeric_sentinels_witness :
    (pyStrip Char.isWhitespace (" N/A ".toList) = [] ∨
      toLowerStr (pyStrip Char.isWhitespace (" N/A ".toList)) ∈ sentinelStrings) ∧
    parse_numeric_keep_raw (some (" N/A ".toList)) =
      (none, some (pyStrip Char.isWhitespace (" N/A ".toList))) :=
  ⟨by decide, C8_parse_numeric_sentinels _ (by decide)⟩

/-- Claim C3 counterexample: the record `{"area": "abc"}` lacks every
state-like field, yet the record is dropped through the exception branch
(`float("abc")` raises before the required-field check runs), not through
the missing-required-field branch — and `normalize_crop_data` maintains no
drop counters at all. -/
theorem C3_no_state_exception_drop :
    (Record.get [("area", Value.vstr ("abc".toList))] "state_name" = Value.vnull ∧
      Record.get [("area", Value.vstr ("abc".toList))] "State" = Value.vnull ∧
      Record.get [("area", Value.vstr ("abc".toList))] "state" = Value.vnull) ∧
    cropExtract ("T".toList) [("area", Value.vstr ("abc".toList))] = Except.error () :=
  ⟨by decide, rfl⟩

/-- Claim C3 (amended): the Punjab example normalizes to area 1500.0 and
production 4500.0; and a record lacking every state-like field is always
dropped — through the required-field check when every other field
extraction succeeds, but through the exception branch when one of them
raises. -/
theorem C3_crop_normalization (ts : List Char) :
    normalize_crop_data [[("state", Value.vstr ("Punjab".toList)), ("year", Value.vint 2010),
        ("area", Value.vstr ("1500".toList)), ("production", Value.vstr ("4500".toList))]] ts =
      [[DBVal.s ("Punjab".toList), DBVal.s [], DBVal.s [], DBVal.s [], DBVal.i 2010,
        DBVal.r 1500, DBVal.r 4500, DBVal.s ("data.gov.in_crop_production".toList),
        DBVal.s ts]] ∧
    ∀ r : Record, Record.get r "state_name" = Value.vnull →
      Record.get r "State" = Value.vnull → Record.get r "state" = Value.vnull →
      cropExtract ts r = Except.ok none ∨ cropExtract ts r = Except.error () := by
  constructor
  · rfl
  · intro r h1 h2 h3
    have hstate : pyStripAttr (pyOr (pyOr (pyOr (Record.get r "state_name")
        (Record.get r "State")) (Record.get r "state")) (.vstr [])) = Except.ok [] := by
      rw [h1, h2, h3]
      rfl
    unfold cropExtract
    rw [hstate]
    simp only [bind, Except.bind, pure, Except.pure]
    repeat' split
    all_goals first
      | (right; rfl)
      | (left; rfl)
      | (rename_i hcontra; exact (hcontra.1 rfl).elim)

theorem C3_crop_normalization_witness :
    (Record.get [("district", Value.vstr ("X".toList))] "state_name" = Value.vnull ∧
      Record.get [("district", Value.vstr ("X".toList))] "State" = Value.vnull ∧
      Record.get [("district", Value.vstr ("X".toList))] "state" = Value.vnull) ∧
    (cropExtract ("T".toList) [("district", Value.vstr ("X".toList))] = Except.ok none ∨
      cropExtract ("T".toList) [("district", Value.vstr ("X".toList))] = Except.error ()) :=
  ⟨⟨by decide, by decide, by decide⟩,
    (C3_crop_normalization ("T".toList)).2 _ (by decide) (by decide) (by decide)⟩

theorem find?_filter_ne_append (l : List MetaRow) (t : String) (x : MetaRow)
    (hx : x.table_name = t) :
    (l.filter (fun m => m.table_name ≠ t) ++ [x]).find? (fun m => m.table_name == t) =
      some x := by
  induction l with
  | nil =>
    simp [List.find?, hx]
  | cons a as ih =>
    by_cases ha : a.table_name = t
    · rw [List.filter_cons_of_neg (by simp [ha])]
      exact ih
    · rw [List.filter_cons_of_pos (by simp [ha]), List.cons_append,
        List.find?_cons_of_neg _ (by simp only [beq_iff_eq]; exact ha)]
      exact ih

theorem findMeta_upsertMetadata (st : DBState) (t now : String) (cnt : Nat) :
    findMeta (upsertMetadata st t now cnt) t =
      some { rid := st.nextMetaId, table_name := t, resource_id := none,
             last_updated := some now, record_count := some cnt,
             description := none, fetch_status := some "success" } := by
  unfold findMeta upsertMetadata
  dsimp only
  exact find?_filter_ne_append st.meta t _ rfl

/-- Claim C4 counterexample: the empty-batch status string is
"No data to save", not the literal "no data" the claim demands. -/
theorem C4_empty_save_status_string :
    (save_to_database ⟨fun _ => [], [], 1⟩ "crop_production" [] [] "T" none none).2 =
      (0, "No data to save") ∧ ("No data to save" : String) ≠ "no data" :=
  ⟨rfl, by decide⟩

/-- Claim C4 (amended): for every state, table name, column list and
failure oracle, saving an empty row list returns exactly
`(0, "No data to save")` and performs no write at all: the destination
tables and the metadata table are returned untouched. -/
theorem C4_empty_save_noop (st : DBState) (t : String) (cols : List String)
    (now : String) (fi fm : Option String) :
    save_to_database st t [] cols now fi fm = (st, 0, "No data to save") := rfl

/-- Claim C2 counterexample: with a non-empty batch, if the bulk insert
succeeds but the metadata statement fails, a non-"success" status is
returned while the whole batch remains in the destination table. -/
theorem C2_rows_retained_after_meta_failure :
    ((save_to_database ⟨fun _ => [], [], 1⟩ "t" [[DBVal.i 1]] [] "T" none
        (some "disk I/O error")).2.2 ≠ "success") ∧
    ((save_to_database ⟨fun _ => [], [], 1⟩ "t" [[DBVal.i 1]] [] "T" none
        (some "disk I/O error")).1.tables "t" = [[DBVal.i 1]]) := by
  constructor
  · decide
  · show (if "t" = "t" then [] ++ [[DBVal.i 1]] else []) = [[DBVal.i 1]]
    rw [if_pos rfl]
    rfl

/-- Claim C2 (amended): a failure of the bulk insert itself rolls the
whole batch back atomically — the state is returned unchanged and the
failure message is the status; but a failure of the metadata update
happens after the batch commit, so the failure message is returned while
the whole batch remains inserted (and the metadata table unchanged). -/
theorem C2_batch_rollback_scope (st : DBState) (t : String)
    (data : List (List DBVal)) (cols : List String) (now msg : String)
    (fm : Option String) (hne : data ≠ []) :
    save_to_database st t data cols now (some msg) fm = (st, 0, "Error: " ++ msg) ∧
    (save_to_database st t data cols now none (some msg)).2 = (0, "Error: " ++ msg) ∧
    (save_to_database st t data cols now none (some msg)).1.tables t =
      st.tables t ++ data ∧
    (save_to_database st t data cols now none (some msg)).1.meta = st.meta := by
  refine ⟨?_, ?_, ?_, ?_⟩
  · unfold save_to_database
    rw [if_neg hne]
  · unfold save_to_database
    rw [if_neg hne]
  · unfold save_to_database
    rw [if_neg hne]
    show (if t = t then st.tables t ++ data else st.tables t) = st.tables t ++ data
    rw [if_pos rfl]
  · unfold save_to_database
    rw [if_neg hne]

theorem C2_batch_rollback_scope_witness :
    (([[DBVal.i 1]] : List (List DBVal)) ≠ []) ∧
    (save_to_database ⟨fun _ => [], [], 1⟩ "t" [[DBVal.i 1]] [] "T" (some "boom") none =
      (⟨fun _ => [], [], 1⟩, 0, "Error: " ++ "boom") ∧
    (save_to_database ⟨fun _ => [], [], 1⟩ "t" [[DBVal.i 1]] [] "T" none
        (some "boom")).2 = (0, "Error: " ++ "boom") ∧
    (save_to_database ⟨fun _ => [], [], 1⟩ "t" [[DBVal.i 1]] [] "T" none
        (some "boom")).1.tables "t" =
      (fun _ => ([] : List (List DBVal))) "t" ++ [[DBVal.i 1]] ∧
    (save_to_database ⟨fun _ => [], [], 1⟩ "t" [[DBVal.i 1]] [] "T" none
        (some "boom")).1.meta = (⟨fun _ => [], [], 1⟩ : DBState).meta) :=
  ⟨by decide, C2_batch_rollback_scope ⟨fun _ => [], [], 1⟩ "t" [[DBVal.i 1]] [] "T" "boom"
    none (by decide)⟩

/-- Claim C5: a successful save of a non-empty batch returns
`(batch length, "success")` and upserts the metadata row for the table
with `record_count` equal to a fresh COUNT(*) of the destination table
after the insert — the table's new true total row count, not any stored
count incremented — and `fetch_status = "success"`. -/
theorem C5_success_fresh_count (st : DBState) (t : String)
    (data : List (List DBVal)) (cols : List String) (now : String)
    (hne : data ≠ []) :
    (save_to_database st t data cols now none none).2 = (data.length, "success") ∧
    (save_to_database st t data cols now none none).1.tables t = st.tables t ++ data ∧
    findMeta (save_to_database st t data cols now none none).1 t =
      some { rid := st.nextMetaId, table_name := t, resource_id := none,
             last_updated := some now,
             record_count := some ((st.tables t).length + data.length),
             description := none, fetch_status := some "success" } := by
  have htab : ∀ u, (if u = t then st.tables u ++ data else st.tables u) =
      if u = t then st.tables u ++ data else st.tables u := fun _ => rfl
  refine ⟨?_, ?_, ?_⟩
  · unfold save_to_database
    rw [if_neg hne]
  · unfold save_to_database
    rw [if_neg hne]
    show (fun u => if u = t then st.tables u ++ data else st.tables u) t =
      st.tables t ++ data
    simp
  · unfold save_to_database
    rw [if_neg hne]
    show findMeta (upsertMetadata
      { st with tables := fun u => if u = t then st.tables u ++ data else st.tables u }
      t now (((fun u => if u = t then st.tables u ++ data else st.tables u) t).length)) t = _
    rw [findMeta_upsertMetadata]
    simp

theorem C5_success_fresh_count_witness :
    (([[DBVal.i 7]] : List (List DBVal)) ≠ []) ∧
    ((save_to_database ⟨fun _ => [[DBVal.i 1], [DBVal.i 2]], [], 4⟩ "t" [[DBVal.i 7]]
        [] "N" none none).2 = (1, "success") ∧
    (save_to_database ⟨fun _ => [[DBVal.i 1], [DBVal.i 2]], [], 4⟩ "t" [[DBVal.i 7]]
        [] "N" none none).1.tables "t" =
      (fun _ => [[DBVal.i 1], [DBVal.i 2]]) "t" ++ [[DBVal.i 7]] ∧
    findMeta (save_to_database ⟨fun _ => [[DBVal.i 1], [DBVal.i 2]], [], 4⟩ "t"
        [[DBVal.i 7]] [] "N" none none).1 "t" =
      some { rid := 4, table_name := "t", resource_id := none,
             last_updated := some "N", record_count := some 3,
             description := none, fetch_status := some "success" }) :=
  ⟨by decide, C5_success_fresh_count ⟨fun _ => [[DBVal.i 1], [DBVal.i 2]], [], 4⟩ "t"
    [[DBVal.i 7]] [] "N" (by decide)⟩

/-- Claim C10: after a successful save, the metadata row for the table is
wholly replaced through INSERT OR REPLACE naming only (table_name,
last_updated, record_count, fetch_status): every metadata row for that
table in the new state has resource_id and description NULL and a fresh
surrogate id — different from the id of any previously stored row for
that table (AUTOINCREMENT ids of stored rows are below `nextMetaId`). -/
theorem C10_metadata_wholly_replaced (st : DBState) (t : String)
    (data : List (List DBVal)) (cols : List String) (now : String) (m : MetaRow)
    (hne : data ≠ []) (hm : m ∈ st.meta) (hmt : m.table_name = t)
    (hid : m.rid < st.nextMetaId) :
    findMeta (save_to_database st t data cols now none none).1 t =
      some { rid := st.nextMetaId, table_name := t, resource_id := none,
             last_updated := some now,
             record_count := some ((st.tables t).length + data.length),
             description := none, fetch_status := some "success" } ∧
    ∀ m2 ∈ (save_to_database st t data cols now none none).1.meta,
      m2.table_name = t →
        m2.resource_id = none ∧ m2.description = none ∧
        m2.rid = st.nextMetaId ∧ m2.rid ≠ m.rid := by
  constructor
  · unfold save_to_database
    rw [if_neg hne]
    show findMeta (upsertMetadata
      { st with tables := fun u => if u = t then st.tables u ++ data else st.tables u }
      t now (((fun u => if u = t then st.tables u ++ data else st.tables u) t).length)) t = _
    rw [findMeta_upsertMetadata]
    simp
  · intro m2 hm2 hm2t
    unfold save_to_database at hm2
    rw [if_neg hne] at hm2
    unfold upsertMetadata at hm2
    dsimp only at hm2
    rcases List.mem_append.mp hm2 with hin | hin
    · have := (List.mem_filter.mp hin).2
      simp only [decide_eq_true_eq] at this
      exact absurd hm2t this
    · rcases List.mem_singleton.mp hin with rfl
      refine ⟨rfl, rfl, rfl, ?_⟩
      intro hcontra
      rw [← hcontra] at hid
      exact Nat.lt_irrefl _ hid

theorem C10_metadata_wholly_replaced_witness :
    (([[DBVal.i 1]] : List (List DBVal)) ≠ [] ∧
      (⟨1, "t", some "res", some "x", some 5, some "desc", some "old"⟩ : MetaRow) ∈
        [(⟨1, "t", some "res", some "x", some 5, some "desc", some "old"⟩ : MetaRow)] ∧
      (⟨1, "t", some "res", some "x", some 5, some "desc", some "old"⟩ : MetaRow).table_name
        = "t" ∧
      (⟨1, "t", some "res", some "x", some 5, some "desc", some "old"⟩ : MetaRow).rid < 2) ∧
    findMeta (save_to_database
        ⟨fun _ => [], [⟨1, "t", some "res", some "x", some 5, some "desc", some "old"⟩], 2⟩
        "t" [[DBVal.i 1]] [] "N" none none).1 "t" =
      some { rid := 2, table_name := "t", resource_id := none,
             last_updated := some "N",
             record_count := some
               (((fun _ => ([] : List (List DBVal))) "t").length + [[DBVal.i 1]].length),
             description := none, fetch_status := some "success" } :=
  ⟨⟨by decide, by decide, by decide, by decide⟩,
    (C10_metadata_wholly_replaced
      ⟨fun _ => [], [⟨1, "t", some "res", some "x", some 5, some "desc", some "old"⟩], 2⟩
      "t" [[DBVal.i 1]] [] "N"
      ⟨1, "t", some "res", some "x", some 5, some "desc", some "old"⟩
      (by decide) (by decide) (by decide) (by decide)).1⟩

theorem fetchLoop_none (outs : List AttemptOutcome)
    (h : ∀ o ∈ outs, isSuccessOutcome o = false) : fetchLoop outs = none := by
  induction outs with
  | nil => rfl
  | cons o rest ih =>
    have ho := h o (List.mem_cons_self o rest)
    have hrest : ∀ x ∈ rest, isSuccessOutcome x = false :=
      fun x hx => h x (List.mem_cons_of_mem _ hx)
    rcases o with ⟨hasKey, recs⟩ | code | _ | _
    · simp only [isSuccessOutcome, Bool.and_eq_false_iff] at ho
      rw [fetchLoop]
      rw [if_neg]
      rintro ⟨h1, h2⟩
      rcases ho with ho | ho
      · rw [h1] at ho; exact absurd ho (by simp)
      · have hempty : recs = [] := by
          have hie : recs.isEmpty = true := by simpa using ho
          exact List.isEmpty_iff.mp hie
        exact h2 hempty
    · rw [fetchLoop]
      by_cases h404 : code = 404
      · rw [if_pos h404]
      rw [if_neg h404]
      by_cases h429 : code = 429
      · rw [if_pos h429]
        exact ih hrest
      rw [if_neg h429]
      by_cases hlast : rest = []
      · rw [if_pos hlast]
      · rw [if_neg hlast]
        exact ih hrest
    · rw [fetchLoop]
      exact ih hrest
    · rw [fetchLoop]
      by_cases hlast : rest = []
      · rw [if_pos hlast]
      · rw [if_neg hlast]
        exact ih hrest

/-- Claim C6: when none of the first `max_retries` attempts produces a
body with a usable `records` array (timeouts, persistent non-404 HTTP
errors such as 500s, 404s, malformed responses, other exceptions),
`fetch_data` returns `none`; and the result depends only on the first
`max_retries` attempt outcomes — the loop never makes more attempts.
Exceptions cannot propagate: the embedding is a total function because
the loop body's except-clauses cover every outcome. -/
theorem C6_fetch_data_failures_degrade_to_none (attempt : Nat → AttemptOutcome)
    (max_retries : Nat) (h : ∀ i < max_retries, isSuccessOutcome (attempt i) = false) :
    fetch_data attempt max_retries = none ∧
    ∀ g : Nat → AttemptOutcome, (∀ i < max_retries, g i = attempt i) →
      fetch_data g max_retries = fetch_data attempt max_retries := by
  constructor
  · apply fetchLoop_none
    intro o ho
    obtain ⟨i, hi, rfl⟩ := List.mem_map.mp ho
    exact h i (List.mem_range.mp hi)
  · intro g hg
    unfold fetch_data
    congr 1
    apply List.map_congr_left
    intro i hi
    exact hg i (List.mem_range.mp hi)

theorem C6_fetch_data_failures_witness :
    isSuccessOutcome (AttemptOutcome.httpError 500) = false ∧
    fetch_data (fun _ => AttemptOutcome.httpError 500) 3 = none :=
  ⟨by decide, (C6_fetch_data_failures_degrade_to_none
    (fun _ => AttemptOutcome.httpError 500) 3 (by decide)).1⟩

/-- Claim C9: running the orchestrator over a catalog with one enabled
source whose fetch yields records normalizing to 3 rows and one disabled
source yields exactly one results entry — count 3, status "success" —
and the disabled source is never fetched: its resource id is absent from
the fetch list and its key absent from the results mapping. -/
theorem C9_orchestrator_enabled_disabled (cfg1 cfg2 : SourceConfig) (k2 : String)
    (recs : List Record) (fetchResult : String → Option (Bool × List Record))
    (nz : OtherNormalizers) (ts : List Char) (now : String)
    (failures : String → Option String × Option String) (st : DBState)
    (h1 : cfg1.enabled = true) (h2 : cfg2.enabled = false)
    (hf : fetchResult cfg1.resource_id = some (true, recs))
    (hr : recs ≠ [])
    (hn : (normalize_crop_data recs ts).length = 3)
    (hfail : failures cfg1.table_name = (none, none)) :
    (fetch_all_sources [("crop_production", cfg1), (k2, cfg2)] fetchResult nz ts now
        failures st).2.1 = [("crop_production", 3, "success")] ∧
    (fetch_all_sources [("crop_production", cfg1), (k2, cfg2)] fetchResult nz ts now
        failures st).2.2 = [cfg1.resource_id] := by
  have hnorm_ne : normalize_crop_data recs ts ≠ [] := by
    intro hx
    rw [hx] at hn
    simp at hn
  constructor <;>
    simp [fetch_all_sources, h1, h2, hf, hr, hfail, dispatchNormalizer,
      save_to_database, hnorm_ne, hn]

theorem C9_orchestrator_enabled_disabled_witness :
    (c9CropConfig.enabled = true ∧ c9DisabledConfig.enabled = false ∧
      c9Fetch c9CropConfig.resource_id =
        some (true, [punjabRecord, punjabRecord, punjabRecord]) ∧
      ([punjabRecord, punjabRecord, punjabRecord] : List Record) ≠ [] ∧
      (normalize_crop_data [punjabRecord, punjabRecord, punjabRecord]
        ("T".toList)).length = 3 ∧
      c9NoFailures c9CropConfig.table_name = (none, none)) ∧
    (fetch_all_sources [("crop_production", c9CropConfig),
        ("rainfall_district", c9DisabledConfig)] c9Fetch c9NoNormalizers ("T".toList)
        "N" c9NoFailures c9EmptyState).2.1 = [("crop_production", 3, "success")] ∧
    (fetch_all_sources [("crop_production", c9CropConfig),
        ("rainfall_district", c9DisabledConfig)] c9Fetch c9NoNormalizers ("T".toList)
        "N" c9NoFailures c9EmptyState).2.2 = [c9CropConfig.resource_id] :=
  ⟨⟨by decide, by decide, by decide, by decide, by decide, by decide⟩,
    C9_orchestrator_enabled_disabled c9CropConfig c9DisabledConfig "rainfall_district"
      [punjabRecord, punjabRecord, punjabRecord] c9Fetch c9NoNormalizers ("T".toList)
      "N" c9NoFailures c9EmptyState (by decide) (by decide) (by decide) (by decide)
      (by decide) (by decide)⟩
